import Mathlib

/-!
Verification of the TuneTutor sheet-music player core.

This file gives a shallow embedding, in Lean 4, of the selection-geometry
engine, the playback scheduler and the layout utilities of the TuneTutor
repository, and proves (or refutes) the frozen specification claims about
them.  JavaScript numbers are modelled as rationals (`ℚ`); the `||` and
truthiness idioms of the source are modelled explicitly (`jsOr`,
`jsTruthyOptQ`); the global render caches (`noteBoundsCache`,
`rowConfigsCache`) are threaded as explicit list arguments.
-/

namespace TuneTutor

/-- JavaScript truncation toward zero, as used by the `%` operator. -/
def jsTrunc (q : ℚ) : ℤ :=
  if 0 ≤ q then ⌊q⌋ else -⌊-q⌋

/-- JavaScript `%` on numbers: remainder with the sign of the dividend. -/
def jsMod (a b : ℚ) : ℚ :=
  a - b * (jsTrunc (a / b) : ℚ)

/-- JavaScript `x || d` on an optional number: `d` when `x` is `undefined`
or `0` (both falsy), otherwise the value of `x`. -/
def jsOr (x : Option ℚ) (d : ℚ) : ℚ :=
  match x with
  | none => d
  | some v => if v = 0 then d else v

/-- JavaScript truthiness of an optional number (used for
`if (!initialXRef.current) return`): falsy when `undefined`/`null` or `0`. -/
def jsTruthyOptQ (x : Option ℚ) : Bool :=
  match x with
  | none => false
  | some v => v != 0

/-- `DURATION_TO_BEATS` from `src/types/audio.ts`: VexFlow duration code to
beat count (quarter note = 1 beat). -/
def DURATION_TO_BEATS : List (String × ℚ) :=
  [("w", 4), ("h", 2), ("q", 1), ("8", 1/2), ("16", 1/4), ("32", 1/8), ("64", 1/16)]

/-- `DURATION_TO_BEATS[duration] ?? 1` from `TempoConverter.ts`. -/
def durationToBeats (duration : String) : ℚ :=
  match DURATION_TO_BEATS.find? (fun p => p.1 == duration) with
  | some p => p.2
  | none => 1

/-- `noteDurationToSeconds` from `src/utils/audio/TempoConverter.ts`. -/
def noteDurationToSeconds (duration : String) (tempo : ℚ) (timeSignatureBeatValue : ℚ) : ℚ :=
  let beats := durationToBeats duration
  let beatDuration := 60 / tempo
  let quarterNoteDuration := beatDuration * (4 / timeSignatureBeatValue)
  beats * quarterNoteDuration

/-- `beatsToSeconds` from `src/utils/audio/TempoConverter.ts`. -/
def beatsToSeconds (beats : ℚ) (tempo : ℚ) (timeSignatureBeatValue : ℚ) : ℚ :=
  let beatDuration := 60 / tempo
  let quarterNoteDuration := beatDuration * (4 / timeSignatureBeatValue)
  beats * quarterNoteDuration

/-- `Note` from `src/types/notation.ts` (the fields the core reads:
pitch, VexFlow duration code, rest flag). -/
structure Note where
  pitch : String
  duration : String
  isRest : Bool
deriving Repr, DecidableEq

/-- `Measure` from `src/types/notation.ts`. -/
structure Measure where
  index : ℕ
  notes : List Note
deriving Repr, DecidableEq

/-- `ParsedScore` from `src/types/notation.ts`.  The source stores the time
signature as a string `"N/D"` and parses the beat value `D` out of it with
`split('/')`; here the already-parsed beat value is stored directly. -/
structure ParsedScore where
  measures : List Measure
  tempo : ℚ
  timeSignatureBeatValue : ℚ
deriving Repr, DecidableEq

/-- Result record of `calculateNotePosition` in `src/hooks/usePlayback.ts`. -/
structure NotePos where
  measureIndex : ℕ
  noteIndex : ℕ
  progressInNote : ℚ
deriving Repr, DecidableEq

/-- Inner loop of `calculateNotePosition` (`usePlayback.ts`, lines 21-33):
scan the notes of measure `m` accumulating elapsed seconds; return the hit
(if `currentTime` falls inside a note) and the updated elapsed time. -/
def scanNotesForPosition (notes : List Note) (m n : ℕ) (tempo beatValue currentTime elapsed : ℚ) :
    Option NotePos × ℚ :=
  match notes with
  | [] => (none, elapsed)
  | note :: rest =>
    let noteDuration := noteDurationToSeconds note.duration tempo beatValue
    if elapsed ≤ currentTime ∧ currentTime < elapsed + noteDuration then
      (some ⟨m, n, (currentTime - elapsed) / noteDuration⟩, elapsed)
    else
      scanNotesForPosition rest m (n + 1) tempo beatValue currentTime (elapsed + noteDuration)

/-- Outer loop of `calculateNotePosition` (`usePlayback.ts`, lines 19-34). -/
def scanMeasuresForPosition (measures : List Measure) (m : ℕ)
    (tempo beatValue currentTime elapsed : ℚ) : Option NotePos :=
  match measures with
  | [] => none
  | meas :: rest =>
    match scanNotesForPosition meas.notes m 0 tempo beatValue currentTime elapsed with
    | (some pos, _) => some pos
    | (none, elapsed') => scanMeasuresForPosition rest (m + 1) tempo beatValue currentTime elapsed'

/-- `calculateNotePosition` from `src/hooks/usePlayback.ts` (lines 11-47):
resolve an elapsed time to (measure, note, progress) by a linear scan; past
the end it returns the last note with progress 1. -/
def calculateNotePosition (score : ParsedScore) (currentTime : ℚ) (tempo : ℚ) : NotePos :=
  let beatValue := score.timeSignatureBeatValue
  match scanMeasuresForPosition score.measures 0 tempo beatValue currentTime 0 with
  | some pos => pos
  | none =>
    match score.measures.getLast? with
    | some lastMeasure =>
      if lastMeasure.notes.length > 0 then
        ⟨score.measures.length - 1, lastMeasure.notes.length - 1, 1⟩
      else ⟨0, 0, 0⟩
    | none => ⟨0, 0, 0⟩

/-- `LoopRange` from `src/types/playback.ts`; `skipBeats` is optional. -/
structure LoopRange where
  startBeat : ℚ
  endBeat : ℚ
  skipBeats : Option ℚ
deriving Repr, DecidableEq

/-- `PlaybackState` from `src/types/playback.ts` (indicator row bounds are
updated outside the scheduler tick and are omitted).  `currentMeasure` is a
plain JS number in the source: the skip branch of the tick stores the loop
range's `endBeat` in it, so it is modelled as `ℚ`; `currentNoteIndex` can
be the sentinel `-1`, so it is modelled as `ℤ`. -/
structure PlaybackState where
  isPlaying : Bool
  isPaused : Bool
  currentMeasure : ℚ
  currentNoteIndex : ℤ
  progress : ℚ
  currentTime : ℚ
  totalDuration : ℚ
  loopEnabled : Bool
  loopRange : Option LoopRange
  indicatorX : ℚ
deriving Repr, DecidableEq

/-- `playDuration` of the loop-with-skip branch (`usePlayback.ts`, lines
172-174): seconds for `endBeat - startBeat` beats. -/
def playDurationQ (lr : LoopRange) (tempo : ℚ) : ℚ :=
  beatsToSeconds (lr.endBeat - lr.startBeat) tempo 4

/-- `skipDuration` of the loop-with-skip branch (`usePlayback.ts`, lines
175-177): `skipBeats || playBeats` converted to seconds. -/
def skipDurationQ (lr : LoopRange) (tempo : ℚ) : ℚ :=
  beatsToSeconds (jsOr lr.skipBeats (lr.endBeat - lr.startBeat)) tempo 4

/-- `cycleDuration = playDuration + skipDuration` (`usePlayback.ts`, line 178). -/
def cycleDurationQ (lr : LoopRange) (tempo : ℚ) : ℚ :=
  playDurationQ lr tempo + skipDurationQ lr tempo

/-- `cycleTime = currentTime % cycleDuration` (`usePlayback.ts`, line 181). -/
def cycleTimeQ (lr : LoopRange) (tempo currentTime : ℚ) : ℚ :=
  jsMod currentTime (cycleDurationQ lr tempo)

/-- The branch condition `cycleTime >= playDuration` (`usePlayback.ts`,
line 183): `true` exactly when the scheduler tick takes the skip branch. -/
def inSkipPhase (lr : LoopRange) (tempo currentTime : ℚ) : Bool :=
  decide (playDurationQ lr tempo ≤ cycleTimeQ lr tempo currentTime)

/-- Tail of the scheduler tick (`usePlayback.ts`, lines 212-251): the
non-loop-range path (finish / plain restart / plain position update). -/
def playbackTickDefault (scoreOpt : Option ParsedScore) (tempo : ℚ)
    (prev : PlaybackState) (currentTime newProgress : ℚ) : PlaybackState :=
  if 100 ≤ newProgress then
    if prev.loopEnabled then
      { prev with progress := 0, currentTime := 0, currentMeasure := 0,
                  currentNoteIndex := -1, indicatorX := 0 }
    else
      { prev with isPlaying := false, progress := 100, currentTime := prev.totalDuration }
  else
    let pos :=
      match scoreOpt with
      | some score => calculateNotePosition score currentTime tempo
      | none => ⟨0, 0, 0⟩
    { prev with progress := newProgress, currentTime := currentTime,
                currentMeasure := (pos.measureIndex : ℚ),
                currentNoteIndex := (pos.noteIndex : ℤ) }

/-- One tick of the playback scheduler: the `setState` updater of the
interval callback in `usePlayback.ts` (lines 164-251), as a pure function
of the previous state, the elapsed time in seconds, and the captured score
and tempo refs.  Timer bookkeeping side effects are not part of the state. -/
def playbackTick (scoreOpt : Option ParsedScore) (tempo : ℚ)
    (prev : PlaybackState) (currentTime : ℚ) : PlaybackState :=
  if prev.totalDuration = 0 then prev
  else
    let newProgress := currentTime / prev.totalDuration * 100
    match prev.loopEnabled, prev.loopRange, scoreOpt with
    | true, some lr, some score =>
      let playDuration := playDurationQ lr tempo
      let cycleTime := cycleTimeQ lr tempo currentTime
      if playDuration ≤ cycleTime then
        { prev with progress := playDuration / prev.totalDuration * 100,
                    currentTime := playDuration,
                    currentMeasure := lr.endBeat,
                    currentNoteIndex := -1 }
      else
        let startBeatOffset := beatsToSeconds lr.startBeat tempo 4
        let positionTime := cycleTime + startBeatOffset
        let pos := calculateNotePosition score positionTime tempo
        { prev with progress := cycleTime / prev.totalDuration * 100,
                    currentTime := cycleTime,
                    currentMeasure := (pos.measureIndex : ℚ),
                    currentNoteIndex := (pos.noteIndex : ℤ) }
    | _, _, _ => playbackTickDefault scoreOpt tempo prev currentTime newProgress

/-! ## Layout engine, note bounds and selection geometry -/

/-- Layout constants from `src/utils/notation/types.ts` (part of the
render module). -/
def STAVE_WIDTH : ℚ := 200

/-- `STAVE_HEIGHT` layout constant. -/
def STAVE_HEIGHT : ℚ := 80

/-- `PADDING` layout constant. -/
def PADDING : ℚ := 20

/-- `STAVE_PADDING` layout constant. -/
def STAVE_PADDING : ℚ := 0

/-- `ROW_SPACING` layout constant. -/
def ROW_SPACING : ℚ := 30

/-- `TOP_Y` layout constant. -/
def TOP_Y : ℚ := 30

/-- `VERTICAL_OFFSET` layout constant. -/
def VERTICAL_OFFSET : ℚ := 30

/-- `MIN_HANDLE_DISTANCE` from the `useNoteSelection` hook: minimum pixel
separation of the two range handles. -/
def MIN_HANDLE_DISTANCE : ℚ := 20

/-- `RowConfig` from the notation types: one wrapped row of measures. -/
structure RowConfig where
  startMeasure : ℕ
  endMeasure : ℕ
  rowIndex : ℕ
  y : ℚ
deriving Repr, DecidableEq

/-- `ScoreLayout` returned by `calculateScoreLayout`. -/
structure ScoreLayout where
  measuresPerRow : ℕ
  totalRows : ℕ
  svgWidth : ℚ
  svgHeight : ℚ
  rowConfigs : List RowConfig
deriving Repr, DecidableEq

/-- `calculateScoreLayout` from `src/utils/notation/layout.ts` (lines
11-58), with the option fields as explicit arguments.  `Math.ceil` of the
measure-count ratio is the integer ceiling; each row's `y` is
`topY + row * (STAVE_HEIGHT + rowSpacing)` (the source uses the
`STAVE_HEIGHT` constant, not an option, for the row height). -/
def calculateScoreLayout (measureCount : ℕ) (staveWidth padding stavePadding rowSpacing topY : ℚ)
    (measuresPerRow : ℕ) : ScoreLayout :=
  let totalRows : ℕ := (⌈(measureCount : ℚ) / (measuresPerRow : ℚ)⌉).toNat
  let svgWidth := padding + (measuresPerRow : ℚ) * staveWidth + ((measuresPerRow : ℚ) - 1) * stavePadding
  let svgHeight := topY + (totalRows : ℚ) * (STAVE_HEIGHT + rowSpacing) + 20
  let rowConfigs := (List.range totalRows).map fun row =>
    { startMeasure := row * measuresPerRow,
      endMeasure := min (row * measuresPerRow + measuresPerRow - 1) (measureCount - 1),
      rowIndex := row,
      y := topY + (row : ℚ) * (STAVE_HEIGHT + rowSpacing) : RowConfig }
  { measuresPerRow := measuresPerRow, totalRows := totalRows,
    svgWidth := svgWidth, svgHeight := svgHeight, rowConfigs := rowConfigs }

/-- `calculateScoreLayout` with every option other than `measuresPerRow`
left at its default (as in the `getRowConfigs` / `renderScore` call sites). -/
def calculateScoreLayoutDefault (measureCount measuresPerRow : ℕ) : ScoreLayout :=
  calculateScoreLayout measureCount STAVE_WIDTH PADDING STAVE_PADDING ROW_SPACING TOP_Y measuresPerRow

/-- `NoteBounds` entries of the render-time `noteBoundsCache` (the
per-stave fields, unread by the selection and indicator code, are
omitted). -/
structure NoteBounds where
  measureIndex : ℕ
  noteIndex : ℕ
  x : ℚ
  y : ℚ
  width : ℚ
  height : ℚ
  rowIndex : ℕ
deriving Repr, DecidableEq

/-- `NotePosition` from the notation types (what `getNotePositions`
projects out of the bounds cache). -/
structure NotePosition where
  measureIndex : ℕ
  noteIndex : ℕ
  x : ℚ
  y : ℚ
  width : ℚ
  height : ℚ
deriving Repr, DecidableEq

/-- `SelectedNote` from the notation types. -/
structure SelectedNote where
  measureIndex : ℕ
  noteIndex : ℕ
deriving Repr, DecidableEq

/-- `SelectionRange` from the notation types. -/
structure SelectionRange where
  startX : ℚ
  endX : ℚ
  startY : Option ℚ
  endY : Option ℚ
  startNote : Option SelectedNote
  endNote : Option SelectedNote
deriving Repr, DecidableEq

/-- `SelectionRect` from the selection types. -/
structure SelectionRect where
  startX : ℚ
  endX : ℚ
  rowIndex : ℕ
  rowY : ℚ
  rowHeight : ℚ
deriving Repr, DecidableEq

/-- `RowHighlight` from the selection types. -/
structure RowHighlight where
  row : RowConfig
  lineStartX : ℚ
  lineEndX : ℚ
deriving Repr, DecidableEq

/-- JavaScript `Array.prototype.slice(a, b)`: the elements at indices
`[a, b)`. -/
def jsSlice {α : Type} (l : List α) (a b : ℕ) : List α :=
  (l.drop a).take (b - a)

/-- `getNotesInRange(startNote, endNote)` from
`src/utils/notation/layout.ts` (lines 84-98): locate both endpoints in the
bounds cache by `findIndex`; if either is missing return `[]`, otherwise
return the contiguous cache slice from the smaller to the larger index
(inclusive). -/
def getNotesInRange (noteBoundsCache : List NoteBounds) (startNote endNote : NoteBounds) :
    List NoteBounds :=
  let startIdx := noteBoundsCache.findIdx?
    (fun n => n.measureIndex == startNote.measureIndex && n.noteIndex == startNote.noteIndex)
  let endIdx := noteBoundsCache.findIdx?
    (fun n => n.measureIndex == endNote.measureIndex && n.noteIndex == endNote.noteIndex)
  match startIdx, endIdx with
  | some i, some j => jsSlice noteBoundsCache (min i j) (max i j + 1)
  | _, _ => []

/-- Per-row body of the `getSelectionRects` loop
(`src/utils/notation/layout.ts`, lines 115-157): `none` models `continue`. -/
def selectionRectForRow (rowConfigsCache : List RowConfig) (noteBoundsCache : List NoteBounds)
    (startNote endNote : NoteBounds) (startRow endRow row : ℕ) : Option SelectionRect :=
  match rowConfigsCache.find? (fun r => r.rowIndex == row) with
  | none => none
  | some rowConfig =>
    match noteBoundsCache.filter (fun n => n.rowIndex == row) with
    | [] => none
    | n0 :: rest =>
      let firstNote := n0
      let lastNote := (n0 :: rest).getLast (List.cons_ne_nil n0 rest)
      let startEnd : NoteBounds × NoteBounds :=
        if row = startRow ∧ row = endRow then
          if startNote.x ≤ endNote.x then (startNote, endNote) else (endNote, startNote)
        else if row = startRow then
          (if startNote.rowIndex = row then startNote else firstNote, lastNote)
        else if row = endRow then
          (firstNote, if endNote.rowIndex = row then endNote else lastNote)
        else
          (firstNote, lastNote)
      some { startX := startEnd.1.x, endX := startEnd.2.x + startEnd.2.width,
             rowIndex := row, rowY := rowConfig.y, rowHeight := STAVE_HEIGHT }

/-- `getSelectionRects(startNote, endNote)` from
`src/utils/notation/layout.ts` (lines 106-160): cross-row decomposition of
a note-anchored range into one rectangle per spanned row. -/
def getSelectionRects (rowConfigsCache : List RowConfig) (noteBoundsCache : List NoteBounds)
    (startNote endNote : NoteBounds) : List SelectionRect :=
  let startRow := min startNote.rowIndex endNote.rowIndex
  let endRow := max startNote.rowIndex endNote.rowIndex
  (List.range' startRow (endRow + 1 - startRow)).filterMap
    (selectionRectForRow rowConfigsCache noteBoundsCache startNote endNote startRow endRow)

/-- `findRowIndexByY` from the `useNoteSelection` module: the first cached
row whose vertical band (inset by `VERTICAL_OFFSET`) contains `y`, else 0. -/
def findRowIndexByY (rowConfigsCache : List RowConfig) (y : ℚ) : ℕ :=
  match rowConfigsCache.find?
      (fun row => decide (row.y + VERTICAL_OFFSET ≤ y) &&
                  decide (y ≤ row.y + STAVE_HEIGHT - VERTICAL_OFFSET)) with
  | some row => row.rowIndex
  | none => 0

/-- Per-row body of the coordinate-anchored highlight loop
(`useNoteSelection`, lines 500-524): `none` models `continue`. -/
def coordinateHighlightForRow (rowConfigsCache : List RowConfig)
    (noteBoundsCache : List NoteBounds) (startX endX : ℚ) (rowIdx : ℕ) : Option RowHighlight :=
  match rowConfigsCache.find? (fun r => r.rowIndex == rowIdx) with
  | none => none
  | some rowConfig =>
    let rowNotes := noteBoundsCache.filter (fun n => n.rowIndex == rowIdx)
    if rowNotes = [] then none
    else
      match rowNotes.filter
          (fun n => decide (startX ≤ n.x + n.width) && decide (n.x ≤ endX)) with
      | [] => none
      | n0 :: rest =>
        let minX := (rest.map (fun n => n.x)).foldl min n0.x
        let maxX := (rest.map (fun n => n.x + n.width)).foldl max (n0.x + n0.width)
        some { row := rowConfig, lineStartX := minX, lineEndX := maxX }

/-- Coordinate-anchored fallback of `calculateRowHighlights`
(`useNoteSelection`, lines 485-526): resolve start/end rows from the Y
coordinates (JS truthiness: `endY ? findRowIndexByY(endY) : startRowIndex`)
and emit, for each row in between, the span of the notes overlapping
`[startX, endX]`. -/
def coordinateRowHighlights (rowConfigsCache : List RowConfig)
    (noteBoundsCache : List NoteBounds) (range : SelectionRange) : List RowHighlight :=
  let startX := min range.startX range.endX
  let endX := max range.startX range.endX
  let startY := range.startY.getD 0
  let endY := range.endY.getD 0
  let startRowIndex := findRowIndexByY rowConfigsCache startY
  let endRowIndex := if endY ≠ 0 then findRowIndexByY rowConfigsCache endY else startRowIndex
  let minRow := min startRowIndex endRowIndex
  let maxRow := max startRowIndex endRowIndex
  (List.range' minRow (maxRow + 1 - minRow)).filterMap
    (coordinateHighlightForRow rowConfigsCache noteBoundsCache startX endX)

/-- `calculateRowHighlights` from the `useNoteSelection` module (lines
451-527): note-anchored cross-row decomposition when both endpoint notes
resolve in the bounds cache, otherwise the coordinate-anchored fallback. -/
def calculateRowHighlights (rowConfigsCache : List RowConfig)
    (noteBoundsCache : List NoteBounds) (selectionRange : Option SelectionRange) :
    List RowHighlight :=
  match selectionRange with
  | none => []
  | some range =>
    if rowConfigsCache = [] then []
    else
      match range.startNote, range.endNote with
      | some sn, some en =>
        match noteBoundsCache.find?
                (fun n => n.measureIndex == sn.measureIndex && n.noteIndex == sn.noteIndex),
              noteBoundsCache.find?
                (fun n => n.measureIndex == en.measureIndex && n.noteIndex == en.noteIndex) with
        | some startNoteBounds, some endNoteBounds =>
          (getSelectionRects rowConfigsCache noteBoundsCache startNoteBounds endNoteBounds).filterMap
            fun rect =>
              match rowConfigsCache.find? (fun r => r.rowIndex == rect.rowIndex) with
              | none => none
              | some row => some { row := row, lineStartX := rect.startX, lineEndX := rect.endX }
        | _, _ => coordinateRowHighlights rowConfigsCache noteBoundsCache range
      | _, _ => coordinateRowHighlights rowConfigsCache noteBoundsCache range

/-- `getPlaybackIndicatorX` from the playback-indicator module (part of
the notation utilities, lines 18-62), with the `getNotePositions()` cache
passed explicitly. -/
def getPlaybackIndicatorX (positions : List NotePosition)
    (currentMeasure currentNoteIndex : ℕ) (progressInNote : ℚ) (isLastNote : Bool) : ℚ :=
  match positions.find?
      (fun n => n.measureIndex == currentMeasure && n.noteIndex == currentNoteIndex) with
  | none =>
    match positions.filter (fun n => n.measureIndex == currentMeasure) with
    | [] => 0
    | m0 :: _ => m0.x
  | some currentNotePos =>
    let currentNoteIndexInArray := (positions.findIdx?
      (fun n => n.measureIndex == currentMeasure && n.noteIndex == currentNoteIndex)).getD 0
    match positions.get? (currentNoteIndexInArray + 1) with
    | some nextNote =>
      if !isLastNote then
        currentNotePos.x + (nextNote.x - currentNotePos.x) * progressInNote
      else
        currentNotePos.x + currentNotePos.width * progressInNote
    | none => currentNotePos.x + currentNotePos.width * progressInNote

/-! ## Selection engine state machine (`useNoteSelection` hook) -/

/-- The two draggable range handles (`'start' | 'end'`). -/
inductive HandleSide where
  | start
  | end'
deriving Repr, DecidableEq

/-- Selection mode (`'replace' | 'add' | 'toggle'`). -/
inductive SelectionModeType where
  | replace
  | add
  | toggle
deriving Repr, DecidableEq

/-- The state of the `useNoteSelection` hook: the React state fields plus
the `initialXRef` mutable ref recording the drag pivot. -/
structure NoteSelectionState where
  selectedNotes : List SelectedNote
  selectionRange : Option SelectionRange
  isRangeSelecting : Bool
  activeHandle : Option HandleSide
  anchorNote : Option SelectedNote
  selectionLeftX : Option ℚ
  selectionRightX : Option ℚ
  isLeftBarDragging : Bool
  isRightBarDragging : Bool
  initialX : Option ℚ
deriving Repr, DecidableEq

/-- `startRangeSelection(x, y?, startNote?)` from `useNoteSelection`
(lines 138-143): record the pivot and open a degenerate range at `x`. -/
def startRangeSelection (x : ℚ) (y : Option ℚ) (startNote : Option SelectedNote)
    (s : NoteSelectionState) : NoteSelectionState :=
  { s with initialX := some x,
           selectionRange := some { startX := x, endX := x, startY := y, endY := y,
                                    startNote := startNote, endNote := startNote },
           isRangeSelecting := true,
           activeHandle := none }

/-- `updateRangeSelection(x, y?, endNote?)` from `useNoteSelection` (lines
145-162): a no-op while `initialXRef.current` is falsy (`null` or `0`),
otherwise set the range to the min/max of the pivot and `x`. -/
def updateRangeSelection (x : ℚ) (y : Option ℚ) (endNote : Option SelectedNote)
    (s : NoteSelectionState) : NoteSelectionState :=
  if !jsTruthyOptQ s.initialX then s
  else
    let initial := s.initialX.getD 0
    let startX := min initial x
    let endX := max initial x
    let newRange :=
      match s.selectionRange with
      | none => { startX := startX, endX := endX, startY := y, endY := y,
                  startNote := endNote, endNote := endNote : SelectionRange }
      | some prev => { startX := startX, endX := endX, startY := prev.startY, endY := y,
                       startNote := prev.startNote, endNote := endNote : SelectionRange }
    { s with selectionRange := some newRange }

/-- `endRangeSelection()` from `useNoteSelection` (lines 164-168): close
the drag; the range itself persists. -/
def endRangeSelection (s : NoteSelectionState) : NoteSelectionState :=
  { s with isRangeSelecting := false, activeHandle := none, initialX := none }

/-- `moveRangeHandle(handle, x)` from `useNoteSelection` (lines 170-187):
move one handle, clamped against the other by `MIN_HANDLE_DISTANCE`; the
source rebuilds the range from `startX`/`endX` only, dropping the
`startY`/`endY`/`startNote`/`endNote` fields. -/
def moveRangeHandle (handle : HandleSide) (x : ℚ) (s : NoteSelectionState) :
    NoteSelectionState :=
  let newRange :=
    match s.selectionRange with
    | none => none
    | some prev =>
      let otherHandle := if handle = HandleSide.start then prev.endX else prev.startX
      let newStartX := if handle = HandleSide.start then
                         min x (otherHandle - MIN_HANDLE_DISTANCE) else prev.startX
      let newEndX := if handle = HandleSide.start then prev.endX
                     else max x (otherHandle + MIN_HANDLE_DISTANCE)
      some { startX := newStartX, endX := newEndX, startY := none, endY := none,
             startNote := none, endNote := none : SelectionRange }
  { s with selectionRange := newRange, activeHandle := some handle }

/-- The existence test of `selectNote`/`toggleNote`: some entry with the
same `(measureIndex, noteIndex)` pair. -/
def sameNotePos (n note : SelectedNote) : Bool :=
  n.measureIndex == note.measureIndex && n.noteIndex == note.noteIndex

/-- `selectNote(note, mode, isShiftPressed)` from `useNoteSelection`
(lines 219-242): `toggle` removes the note if present (filtering by the
index pair) and appends it otherwise; any other mode replaces the
selection with exactly this note; the note becomes the anchor. -/
def selectNote (note : SelectedNote) (mode : SelectionModeType)
    (s : NoteSelectionState) : NoteSelectionState :=
  let newSelected :=
    if mode = SelectionModeType.toggle then
      if s.selectedNotes.any (fun n => sameNotePos n note) then
        s.selectedNotes.filter (fun n => !sameNotePos n note)
      else
        s.selectedNotes ++ [note]
    else [note]
  { s with selectedNotes := newSelected, anchorNote := some note }

/-- `toggleNote(note)` from `useNoteSelection` (lines 244-256). -/
def toggleNote (note : SelectedNote) (s : NoteSelectionState) : NoteSelectionState :=
  let newSelected :=
    if s.selectedNotes.any (fun n => sameNotePos n note) then
      s.selectedNotes.filter (fun n => !sameNotePos n note)
    else
      s.selectedNotes ++ [note]
  { s with selectedNotes := newSelected }

/-- A sequence of `moveRangeHandle` calls applied in order. -/
def applyHandleMoves (s : NoteSelectionState) (moves : List (HandleSide × ℚ)) :
    NoteSelectionState :=
  moves.foldl (fun st mv => moveRangeHandle mv.1 mv.2 st) s

/-- A sequence of `updateRangeSelection` calls applied in order. -/
def applyRangeUpdates (s : NoteSelectionState)
    (updates : List (ℚ × Option ℚ × Option SelectedNote)) : NoteSelectionState :=
  updates.foldl (fun st u => updateRangeSelection u.1 u.2.1 u.2.2 st) s

/-! ## Concrete instances used by the claim checks -/

/-- A quarter note, as produced by the parser. -/
def qnote : Note := ⟨"C4", "q", false⟩

/-- A score of one 4/4 measure of four quarter notes at 120 BPM. -/
def scoreQ4 : ParsedScore := ⟨[⟨0, [qnote, qnote, qnote, qnote]⟩], 120, 4⟩

/-- The loop range of the loop-cycle determinism check. -/
def lrSkip4 : LoopRange := ⟨0, 4, some 4⟩

/-- A loop range with `skipBeats = 0`. -/
def lrSkip0 : LoopRange := ⟨0, 4, some 0⟩

/-- Playback state mid-play over `scoreQ4` with loop range `lrSkip4`. -/
def prevSkip4 : PlaybackState :=
  { isPlaying := true, isPaused := false, currentMeasure := 0, currentNoteIndex := -1,
    progress := 0, currentTime := 0, totalDuration := 2, loopEnabled := true,
    loopRange := some lrSkip4, indicatorX := 0 }

/-- Playback state mid-play over `scoreQ4` with loop range `lrSkip0`. -/
def prevSkip0 : PlaybackState :=
  { prevSkip4 with loopRange := some lrSkip0 }

/-- Two adjacent rendered notes: the first at x=100 with width 20, its
successor at x=140. -/
def posPair : List NotePosition :=
  [⟨0, 0, 100, 40, 20, 10⟩, ⟨0, 1, 140, 40, 20, 10⟩]

/-- A two-entry bounds cache on one row. -/
def boundsPair : List NoteBounds :=
  [⟨0, 0, 100, 40, 20, 10, 0⟩, ⟨0, 1, 140, 40, 20, 10, 0⟩]

/-- First entry of `boundsPair`. -/
def nbFst : NoteBounds := ⟨0, 0, 100, 40, 20, 10, 0⟩

/-- Second entry of `boundsPair`. -/
def nbSnd : NoteBounds := ⟨0, 1, 140, 40, 20, 10, 0⟩

/-- A note reference absent from `boundsPair`. -/
def nbMissing : NoteBounds := ⟨9, 9, 0, 0, 0, 0, 0⟩

/-- A rendered note on row 0. -/
def nbRow0 : NoteBounds := ⟨0, 0, 30, 40, 20, 10, 0⟩

/-- First rendered note on row 1. -/
def nbR1a : NoteBounds := ⟨1, 0, 30, 150, 20, 10, 1⟩

/-- Second rendered note on row 1. -/
def nbR1b : NoteBounds := ⟨1, 1, 90, 150, 20, 10, 1⟩

/-- A rendered note on row 2. -/
def nbRow2 : NoteBounds := ⟨2, 0, 30, 260, 20, 10, 2⟩

/-- A three-row bounds cache (one note on rows 0 and 2, two on row 1). -/
def boundsThreeRows : List NoteBounds := [nbRow0, nbR1a, nbR1b, nbRow2]

/-- Row configs for the three-row cache. -/
def rowsThree : List RowConfig :=
  [⟨0, 0, 0, 30⟩, ⟨1, 1, 1, 140⟩, ⟨2, 2, 2, 250⟩]

/-- A selection state holding the range `[0, 100]`. -/
def selStateRange : NoteSelectionState :=
  { selectedNotes := [], selectionRange := some ⟨0, 100, none, none, none, none⟩,
    isRangeSelecting := false, activeHandle := none, anchorNote := none,
    selectionLeftX := none, selectionRightX := none, isLeftBarDragging := false,
    isRightBarDragging := false, initialX := none }

/-- A selection state whose drag pivot is the falsy pixel `0`. -/
def selStatePivot0 : NoteSelectionState :=
  { selStateRange with initialX := some 0 }

/-! ## Helper lemmas -/

/-- The beat table maps the quarter-note code to one beat. -/
theorem durationToBeats_q : durationToBeats "q" = 1 := rfl

/-- With `skipBeats = 0`, the `||` default makes the skip length equal the
play length. -/
theorem skipDurationQ_of_skipZero (lr : LoopRange) (tempo : ℚ) (h : lr.skipBeats = some 0) :
    skipDurationQ lr tempo = playDurationQ lr tempo := by
  simp [skipDurationQ, playDurationQ, jsOr, h]

/-! ## Claim theorems -/

/-- C2: for `loopRange = {startBeat: 0, endBeat: 4, skipBeats: 4}` at 120
BPM the scheduler's play and skip durations are 2 s each, so the cycle is
4 s; the tick at elapsed time 1.5 s is in the playing phase and resolves
the position to note 3 of measure 0 (beat 3 of the four-quarter-note
score), while the tick at elapsed time 3.0 s is in the skip phase. -/
theorem C2_loop_cycle_determinism :
    playDurationQ lrSkip4 120 = 2 ∧ skipDurationQ lrSkip4 120 = 2 ∧
    cycleDurationQ lrSkip4 120 = 4 ∧
    cycleTimeQ lrSkip4 120 (3/2) = 3/2 ∧
    inSkipPhase lrSkip4 120 (3/2) = false ∧
    (playbackTick (some scoreQ4) 120 prevSkip4 (3/2)).currentMeasure = 0 ∧
    (playbackTick (some scoreQ4) 120 prevSkip4 (3/2)).currentNoteIndex = 3 ∧
    inSkipPhase lrSkip4 120 3 = true ∧
    (playbackTick (some scoreQ4) 120 prevSkip4 3).currentNoteIndex = -1 ∧
    (playbackTick (some scoreQ4) 120 prevSkip4 3).currentTime = playDurationQ lrSkip4 120 := by
  norm_num [playbackTick, prevSkip4, scoreQ4, lrSkip4, qnote, playDurationQ, cycleTimeQ,
    cycleDurationQ, skipDurationQ, beatsToSeconds, jsOr, jsMod, jsTrunc, inSkipPhase,
    calculateNotePosition, scanMeasuresForPosition, scanNotesForPosition,
    noteDurationToSeconds, durationToBeats_q]

/-- C1 counterexample: with `skipBeats = 0` the scheduler does NOT behave
as plain looping — `skipBeats || playBeats` treats 0 as falsy, so at
elapsed time 3 s (loop range `{0, 4, 0}`, 120 BPM) the tick is in the skip
phase: it freezes the position at the end of the play range instead of
playing. -/
theorem C1_counterexample :
    inSkipPhase lrSkip0 120 3 = true ∧
    (playbackTick (some scoreQ4) 120 prevSkip0 3).currentNoteIndex = -1 ∧
    (playbackTick (some scoreQ4) 120 prevSkip0 3).currentMeasure = lrSkip0.endBeat ∧
    (playbackTick (some scoreQ4) 120 prevSkip0 3).currentTime = playDurationQ lrSkip0 120 := by
  norm_num [playbackTick, prevSkip0, prevSkip4, scoreQ4, lrSkip0, qnote, playDurationQ,
    cycleTimeQ, cycleDurationQ, skipDurationQ, beatsToSeconds, jsOr, jsMod, jsTrunc,
    inSkipPhase]

/-- C1 (amended): with `skipBeats = 0` the scheduler substitutes the play
length for the skip length, so the skip phase lasts as long as the play
phase and the cycle is twice the play duration; the cycle duration is
positive (no zero-duration cycle) whenever the range and tempo are
positive. -/
theorem C1_skipZero_defaults_to_playBeats (lr : LoopRange) (tempo : ℚ)
    (h : lr.skipBeats = some 0) :
    skipDurationQ lr tempo = playDurationQ lr tempo ∧
    cycleDurationQ lr tempo = 2 * playDurationQ lr tempo ∧
    (0 < tempo → lr.startBeat < lr.endBeat → 0 < cycleDurationQ lr tempo) := by
  refine ⟨skipDurationQ_of_skipZero lr tempo h, ?_, ?_⟩
  · rw [cycleDurationQ, skipDurationQ_of_skipZero lr tempo h]; ring
  · intro htempo hrange
    rw [cycleDurationQ, skipDurationQ_of_skipZero lr tempo h]
    have hplay : 0 < playDurationQ lr tempo := by
      rw [playDurationQ, beatsToSeconds]
      have h1 : 0 < lr.endBeat - lr.startBeat := by linarith
      have h2 : (0:ℚ) < 60 / tempo := by positivity
      norm_num
      positivity
    linarith

/-- Witness for `C1_skipZero_defaults_to_playBeats` at `lrSkip0`, 120 BPM. -/
theorem C1_skipZero_defaults_to_playBeats_witness :
    skipDurationQ lrSkip0 120 = playDurationQ lrSkip0 120 ∧ 0 < cycleDurationQ lrSkip0 120 :=
  ⟨(C1_skipZero_defaults_to_playBeats lrSkip0 120 rfl).1,
   (C1_skipZero_defaults_to_playBeats lrSkip0 120 rfl).2.2 (by norm_num)
     (by norm_num [lrSkip0])⟩

/-- C5: with the current note at x=100 (width 20) and its successor at
x=140, the indicator with `progressInNote = 0.5` is at
`100 + (140-100)*0.5 = 120` when not the last note, and at
`100 + 20*0.5 = 110` when flagged last. -/
theorem C5_indicator_interpolation :
    getPlaybackIndicatorX posPair 0 0 (1/2) false = 120 ∧
    getPlaybackIndicatorX posPair 0 0 (1/2) true = 110 := by
  norm_num [getPlaybackIndicatorX, posPair, List.find?, List.findIdx?]

/-- C10: note-anchored range resolution is commutative — swapping the
start and end notes yields the same contiguous slice of the bounds cache
(min index to max index) — and it yields `[]` whenever either endpoint is
absent from the cache. -/
theorem C10_getNotesInRange_comm (cache : List NoteBounds) (s e : NoteBounds) :
    getNotesInRange cache s e = getNotesInRange cache e s ∧
    ((cache.findIdx?
        (fun n => n.measureIndex == s.measureIndex && n.noteIndex == s.noteIndex) = none ∨
      cache.findIdx?
        (fun n => n.measureIndex == e.measureIndex && n.noteIndex == e.noteIndex) = none) →
      getNotesInRange cache s e = []) := by
  constructor
  · unfold getNotesInRange
    cases h1 : cache.findIdx?
        (fun n => n.measureIndex == s.measureIndex && n.noteIndex == s.noteIndex) <;>
      cases h2 : cache.findIdx?
          (fun n => n.measureIndex == e.measureIndex && n.noteIndex == e.noteIndex) <;>
      simp [Nat.min_comm, Nat.max_comm]
  · intro h
    unfold getNotesInRange
    cases h1 : cache.findIdx?
        (fun n => n.measureIndex == s.measureIndex && n.noteIndex == s.noteIndex) <;>
      cases h2 : cache.findIdx?
          (fun n => n.measureIndex == e.measureIndex && n.noteIndex == e.noteIndex) <;>
      simp_all

/-- Witness for `C10_getNotesInRange_comm`: commutativity on the two-note
cache, and the empty result for an endpoint absent from the cache. -/
theorem C10_getNotesInRange_comm_witness :
    getNotesInRange boundsPair nbFst nbSnd = getNotesInRange boundsPair nbSnd nbFst ∧
    getNotesInRange boundsPair nbFst nbMissing = [] :=
  ⟨(C10_getNotesInRange_comm boundsPair nbFst nbSnd).1,
   (C10_getNotesInRange_comm boundsPair nbFst nbMissing).2 (Or.inr (by decide))⟩

/-- The pair test of `selectNote`/`toggleNote` holds exactly on equal
selected-note references. -/
theorem sameNotePos_iff (n note : SelectedNote) : sameNotePos n note = true ↔ n = note := by
  cases n; cases note; simp [sameNotePos]

/-- The `exists` probe of `selectNote` detects list membership. -/
theorem any_sameNotePos (l : List SelectedNote) (note : SelectedNote) :
    l.any (fun n => sameNotePos n note) = true ↔ note ∈ l := by
  simp [List.any_eq_true, sameNotePos_iff]

/-- The selected-note list produced by one `toggle`-mode `selectNote`. -/
theorem selectNote_toggle_selectedNotes (note : SelectedNote) (s : NoteSelectionState) :
    (selectNote note SelectionModeType.toggle s).selectedNotes =
      (if s.selectedNotes.any (fun n => sameNotePos n note) = true
       then s.selectedNotes.filter (fun n => !sameNotePos n note)
       else s.selectedNotes ++ [note]) := by
  simp [selectNote]

/-- C6: toggling the same note twice through `selectNote(…, 'toggle')`
returns the selection to exactly the original membership, keyed by the
`(measureIndex, noteIndex)` pair: the first toggle adds the note if absent
and removes it if present, and the second undoes that change. -/
theorem C6_toggle_twice_membership (s : NoteSelectionState) (note m : SelectedNote) :
    (m ∈ (selectNote note SelectionModeType.toggle
            (selectNote note SelectionModeType.toggle s)).selectedNotes) ↔
      m ∈ s.selectedNotes := by
  by_cases hmem : note ∈ s.selectedNotes
  · have hany : s.selectedNotes.any (fun n => sameNotePos n note) = true :=
      (any_sameNotePos _ _).mpr hmem
    have e1 : (selectNote note SelectionModeType.toggle s).selectedNotes =
        s.selectedNotes.filter (fun n => !sameNotePos n note) := by
      rw [selectNote_toggle_selectedNotes, if_pos hany]
    have hany2 : ((s.selectedNotes.filter (fun n => !sameNotePos n note)).any
        (fun n => sameNotePos n note)) = false := by
      apply Bool.eq_false_iff.mpr
      intro hc
      obtain ⟨x, hx, hpx⟩ := List.any_eq_true.mp hc
      have hxf := (List.mem_filter.mp hx).2
      rw [hpx] at hxf
      simp at hxf
    have e2 : (selectNote note SelectionModeType.toggle
        (selectNote note SelectionModeType.toggle s)).selectedNotes =
        s.selectedNotes.filter (fun n => !sameNotePos n note) ++ [note] := by
      rw [selectNote_toggle_selectedNotes, e1, if_neg (by simp [hany2])]
    rw [e2]
    constructor
    · intro hm
      rcases List.mem_append.mp hm with hm | hm
      · exact (List.mem_filter.mp hm).1
      · have hmn : m = note := by simpa using hm
        rw [hmn]; exact hmem
    · intro hm
      by_cases hmn : m = note
      · exact List.mem_append.mpr (Or.inr (by simp [hmn]))
      · refine List.mem_append.mpr (Or.inl (List.mem_filter.mpr ⟨hm, ?_⟩))
        rw [Bool.not_eq_true']
        exact Bool.eq_false_iff.mpr (fun hc => hmn ((sameNotePos_iff m note).mp hc))
  · have hany : s.selectedNotes.any (fun n => sameNotePos n note) = false :=
      Bool.eq_false_iff.mpr (fun hc => hmem ((any_sameNotePos _ _).mp hc))
    have e1 : (selectNote note SelectionModeType.toggle s).selectedNotes =
        s.selectedNotes ++ [note] := by
      rw [selectNote_toggle_selectedNotes, if_neg (by simp [hany])]
    have hany2 : ((s.selectedNotes ++ [note]).any (fun n => sameNotePos n note)) = true :=
      List.any_eq_true.mpr ⟨note, by simp, (sameNotePos_iff note note).mpr rfl⟩
    have hfilter : (s.selectedNotes ++ [note]).filter (fun n => !sameNotePos n note) =
        s.selectedNotes := by
      rw [List.filter_append]
      have hl : s.selectedNotes.filter (fun n => !sameNotePos n note) = s.selectedNotes := by
        apply List.filter_eq_self.mpr
        intro a ha
        rw [Bool.not_eq_true']
        exact Bool.eq_false_iff.mpr (fun hc => hmem (((sameNotePos_iff a note).mp hc) ▸ ha))
      have hn : [note].filter (fun n => !sameNotePos n note) = [] := by
        simp [(sameNotePos_iff note note).mpr rfl]
      rw [hl, hn, List.append_nil]
    have e2 : (selectNote note SelectionModeType.toggle
        (selectNote note SelectionModeType.toggle s)).selectedNotes = s.selectedNotes := by
      rw [selectNote_toggle_selectedNotes, e1, if_pos hany2, hfilter]
    rw [e2]

/-- One `moveRangeHandle` call establishes the handle-separation
invariant: the moving handle is clamped against the other one offset by
`MIN_HANDLE_DISTANCE`. -/
theorem moveRangeHandle_sep (s : NoteSelectionState) (h : HandleSide) (x : ℚ)
    (r : SelectionRange) (hr : (moveRangeHandle h x s).selectionRange = some r) :
    r.startX + MIN_HANDLE_DISTANCE ≤ r.endX := by
  cases hsr : s.selectionRange with
  | none => simp [moveRangeHandle, hsr] at hr
  | some prev =>
    cases h with
    | start =>
      simp [moveRangeHandle, hsr] at hr
      rw [← hr]
      have := min_le_right x (prev.endX - MIN_HANDLE_DISTANCE)
      simp only []
      linarith
    | end' =>
      simp [moveRangeHandle, hsr] at hr
      rw [← hr]
      have := le_max_right x (prev.startX + MIN_HANDLE_DISTANCE)
      simp only []
      linarith

/-- C3: after every call of any sequence of `moveRangeHandle` calls (from
any starting state holding a range), the range satisfies
`startX < endX`; in fact the handles stay at least `MIN_HANDLE_DISTANCE`
(20 px) apart, because the moving handle is clamped against the other
handle offset by that constant. -/
theorem C3_moveRangeHandle_invariant (s : NoteSelectionState)
    (moves : List (HandleSide × ℚ)) (hne : moves ≠ []) (r : SelectionRange)
    (hr : (applyHandleMoves s moves).selectionRange = some r) :
    r.startX < r.endX ∧ r.startX + MIN_HANDLE_DISTANCE ≤ r.endX := by
  obtain ⟨q, a, rfl⟩ := (List.eq_nil_or_concat moves).resolve_left hne
  rw [applyHandleMoves, List.concat_eq_append, List.foldl_append] at hr
  have hsep := moveRangeHandle_sep _ _ _ _ hr
  have hd : (0:ℚ) < MIN_HANDLE_DISTANCE := by norm_num [MIN_HANDLE_DISTANCE]
  exact ⟨by linarith, hsep⟩

/-- Witness for `C3_moveRangeHandle_invariant`: dragging the start handle
of the range `[0, 100]` to 50 leaves the range `[50, 100]`, which keeps
the separation invariant. -/
theorem C3_moveRangeHandle_invariant_witness :
    (applyHandleMoves selStateRange [(HandleSide.start, 50)]).selectionRange =
      some ⟨50, 100, none, none, none, none⟩ ∧
    (50:ℚ) < 100 ∧ (50:ℚ) + MIN_HANDLE_DISTANCE ≤ 100 := by
  have hr : (applyHandleMoves selStateRange [(HandleSide.start, 50)]).selectionRange =
      some ⟨50, 100, none, none, none, none⟩ := by
    norm_num [applyHandleMoves, moveRangeHandle, selStateRange, MIN_HANDLE_DISTANCE]
  have h := C3_moveRangeHandle_invariant selStateRange [(HandleSide.start, 50)]
    (by simp) ⟨50, 100, none, none, none, none⟩ hr
  exact ⟨hr, h.1, h.2⟩

/-- A single `updateRangeSelection` call is a no-op when the stored pivot
is falsy (`null` or the pixel coordinate `0`). -/
theorem updateRangeSelection_noop (x : ℚ) (y : Option ℚ) (en : Option SelectedNote)
    (s : NoteSelectionState) (h : s.initialX = none ∨ s.initialX = some 0) :
    updateRangeSelection x y en s = s := by
  rcases h with h | h <;> simp [updateRangeSelection, jsTruthyOptQ, h]

/-- C9: when the most recent `startRangeSelection` recorded pivot `x = 0`
(which is falsy in the `if (!initialXRef.current) return` guard), or no
drag is in progress (`endRangeSelection` cleared the pivot to `null`),
every subsequent sequence of `updateRangeSelection` calls leaves the
entire selection state unchanged. -/
theorem C9_pivot_zero_freezes_updates (y0 : Option ℚ) (sn : Option SelectedNote)
    (s s' : NoteSelectionState) (h : s'.initialX = none ∨ s'.initialX = some 0)
    (updates : List (ℚ × Option ℚ × Option SelectedNote)) :
    (startRangeSelection 0 y0 sn s).initialX = some 0 ∧
    (endRangeSelection s).initialX = none ∧
    applyRangeUpdates s' updates = s' := by
  refine ⟨rfl, rfl, ?_⟩
  induction updates with
  | nil => rfl
  | cons u rest ih =>
    show applyRangeUpdates (updateRangeSelection u.1 u.2.1 u.2.2 s') rest = s'
    rw [updateRangeSelection_noop u.1 u.2.1 u.2.2 s' h]
    exact ih

/-- Witness for `C9_pivot_zero_freezes_updates`: a state whose pivot is
the falsy pixel `0` ignores an update at `x = 5`. -/
theorem C9_pivot_zero_freezes_updates_witness :
    selStatePivot0.initialX = some 0 ∧
    applyRangeUpdates selStatePivot0 [(5, none, none)] = selStatePivot0 :=
  ⟨rfl, (C9_pivot_zero_freezes_updates none none selStatePivot0 selStatePivot0
    (Or.inr rfl) [(5, none, none)]).2.2⟩

/-- The coordinate-anchored highlight computation on an empty row-config
cache yields no highlights. -/
theorem coordinateRowHighlights_nil (nb : List NoteBounds) (range : SelectionRange) :
    coordinateRowHighlights [] nb range = [] := by
  simp [coordinateRowHighlights, findRowIndexByY, coordinateHighlightForRow, List.range']

/-- C7: a note-anchored range whose start or end note cannot be resolved
in the bounds cache is resolved by `calculateRowHighlights` through the
coordinate-anchored fallback — it produces exactly the highlights the
coordinate-anchored path yields, rather than failing. -/
theorem C7_unresolved_note_falls_back (rcfg : List RowConfig) (nb : List NoteBounds)
    (range : SelectionRange) (sn en : SelectedNote)
    (hs : range.startNote = some sn) (he : range.endNote = some en)
    (h : nb.find?
           (fun n => n.measureIndex == sn.measureIndex && n.noteIndex == sn.noteIndex) = none ∨
         nb.find?
           (fun n => n.measureIndex == en.measureIndex && n.noteIndex == en.noteIndex) = none) :
    calculateRowHighlights rcfg nb (some range) = coordinateRowHighlights rcfg nb range := by
  rcases eq_or_ne rcfg [] with rfl | hne
  · rw [coordinateRowHighlights_nil]
    simp [calculateRowHighlights]
  · simp only [calculateRowHighlights]
    rw [if_neg hne, hs, he]
    split
    · rename_i a b heq1 heq2
      injection heq1 with h1e
      injection heq2 with h2e
      subst h1e
      subst h2e
      split
      · rename_i s1 e1 heqA heqB
        rcases h with h | h
        · rw [h] at heqA; cases heqA
        · rw [h] at heqB; cases heqB
      · rfl
    · rename_i himp
      exact (himp sn en rfl rfl).elim

/-- Witness for `C7_unresolved_note_falls_back`: a range anchored at a
note absent from the two-note cache resolves via the coordinate path. -/
theorem C7_unresolved_note_falls_back_witness :
    calculateRowHighlights [⟨0, 0, 0, 30⟩] boundsPair
        (some ⟨0, 200, some 40, some 40, some ⟨9, 9⟩, some ⟨0, 0⟩⟩) =
      coordinateRowHighlights [⟨0, 0, 0, 30⟩] boundsPair
        ⟨0, 200, some 40, some 40, some ⟨9, 9⟩, some ⟨0, 0⟩⟩ :=
  C7_unresolved_note_falls_back [⟨0, 0, 0, 30⟩] boundsPair
    ⟨0, 200, some 40, some 40, some ⟨9, 9⟩, some ⟨0, 0⟩⟩ ⟨9, 9⟩ ⟨0, 0⟩ rfl rfl
    (Or.inl (by decide))

/-- Evaluation of one middle row of the cross-row decomposition. -/
theorem selectionRectForRow_middle (rcfg : List RowConfig) (nb : List NoteBounds)
    (startNote endNote : NoteBounds) (r1 : ℕ) (c2 : RowConfig) (a2 : NoteBounds)
    (t2 : List NoteBounds)
    (hc2 : rcfg.find? (fun r => r.rowIndex == (r1 + 1)) = some c2)
    (hf2 : nb.filter (fun n => n.rowIndex == (r1 + 1)) = a2 :: t2) :
    selectionRectForRow rcfg nb startNote endNote r1 (r1 + 2) (r1 + 1) = some
      { startX := a2.x,
        endX := ((a2 :: t2).getLast (List.cons_ne_nil a2 t2)).x +
                ((a2 :: t2).getLast (List.cons_ne_nil a2 t2)).width,
        rowIndex := r1 + 1, rowY := c2.y, rowHeight := STAVE_HEIGHT } := by
  have hne1 : ¬(r1 + 1 = r1) := by omega
  have hne2 : ¬(r1 + 1 = r1 + 2) := by omega
  simp [selectionRectForRow, hc2, hf2, hne1, hne2]

/-- C4: a note-anchored range from a note on row `r1` to a note on row
`r1 + 2`, with all three rows configured and populated, decomposes into
exactly 3 rectangles, and the middle row rectangle spans the whole row:
from the first note of the row to the right edge of its last note. -/
theorem C4_cross_row_three_rects (rcfg : List RowConfig) (nb : List NoteBounds)
    (startNote endNote : NoteBounds) (r1 : ℕ) (c1 c2 c3 : RowConfig)
    (a1 a2 a3 : NoteBounds) (t1 t2 t3 : List NoteBounds)
    (hs : startNote.rowIndex = r1) (he : endNote.rowIndex = r1 + 2)
    (hc1 : rcfg.find? (fun r => r.rowIndex == r1) = some c1)
    (hc2 : rcfg.find? (fun r => r.rowIndex == (r1 + 1)) = some c2)
    (hc3 : rcfg.find? (fun r => r.rowIndex == (r1 + 2)) = some c3)
    (hf1 : nb.filter (fun n => n.rowIndex == r1) = a1 :: t1)
    (hf2 : nb.filter (fun n => n.rowIndex == (r1 + 1)) = a2 :: t2)
    (hf3 : nb.filter (fun n => n.rowIndex == (r1 + 2)) = a3 :: t3) :
    (getSelectionRects rcfg nb startNote endNote).length = 3 ∧
    (getSelectionRects rcfg nb startNote endNote).get? 1 = some
      { startX := a2.x,
        endX := ((a2 :: t2).getLast (List.cons_ne_nil a2 t2)).x +
                ((a2 :: t2).getLast (List.cons_ne_nil a2 t2)).width,
        rowIndex := r1 + 1, rowY := c2.y, rowHeight := STAVE_HEIGHT } := by
  have hmin : min startNote.rowIndex endNote.rowIndex = r1 := by rw [hs, he]; omega
  have hmax : max startNote.rowIndex endNote.rowIndex = r1 + 2 := by rw [hs, he]; omega
  have e1 : selectionRectForRow rcfg nb startNote endNote r1 (r1 + 2) r1 = some
      { startX := startNote.x,
        endX := ((a1 :: t1).getLast (List.cons_ne_nil a1 t1)).x +
                ((a1 :: t1).getLast (List.cons_ne_nil a1 t1)).width,
        rowIndex := r1, rowY := c1.y, rowHeight := STAVE_HEIGHT } := by
    have hne : ¬(r1 = r1 + 2) := by omega
    simp [selectionRectForRow, hc1, hf1, hne, hs]
  have e2 := selectionRectForRow_middle rcfg nb startNote endNote r1 c2 a2 t2 hc2 hf2
  have e3 : selectionRectForRow rcfg nb startNote endNote r1 (r1 + 2) (r1 + 2) = some
      { startX := a3.x, endX := endNote.x + endNote.width,
        rowIndex := r1 + 2, rowY := c3.y, rowHeight := STAVE_HEIGHT } := by
    have hne : ¬(r1 + 2 = r1) := by omega
    simp [selectionRectForRow, hc3, hf3, hne, he]
  have hrange : List.range' r1 3 = [r1, r1 + 1, r1 + 2] := rfl
  have hrects : getSelectionRects rcfg nb startNote endNote =
      [{ startX := startNote.x,
         endX := ((a1 :: t1).getLast (List.cons_ne_nil a1 t1)).x +
                 ((a1 :: t1).getLast (List.cons_ne_nil a1 t1)).width,
         rowIndex := r1, rowY := c1.y, rowHeight := STAVE_HEIGHT },
       { startX := a2.x,
         endX := ((a2 :: t2).getLast (List.cons_ne_nil a2 t2)).x +
                 ((a2 :: t2).getLast (List.cons_ne_nil a2 t2)).width,
         rowIndex := r1 + 1, rowY := c2.y, rowHeight := STAVE_HEIGHT },
       { startX := a3.x, endX := endNote.x + endNote.width,
         rowIndex := r1 + 2, rowY := c3.y, rowHeight := STAVE_HEIGHT }] := by
    simp only [getSelectionRects, hmin, hmax]
    rw [show r1 + 2 + 1 - r1 = 3 from by omega, hrange]
    simp [List.filterMap_cons, e1, e2, e3]
  rw [hrects]
  exact ⟨rfl, rfl⟩

/-- Witness for `C4_cross_row_three_rects` on the three-row cache. -/
theorem C4_cross_row_three_rects_witness :
    (getSelectionRects rowsThree boundsThreeRows nbRow0 nbRow2).length = 3 ∧
    (getSelectionRects rowsThree boundsThreeRows nbRow0 nbRow2).get? 1 =
      some { startX := 30, endX := 110, rowIndex := 1, rowY := 140,
             rowHeight := STAVE_HEIGHT } := by
  have h := C4_cross_row_three_rects rowsThree boundsThreeRows nbRow0 nbRow2 0
    ⟨0, 0, 0, 30⟩ ⟨1, 1, 1, 140⟩ ⟨2, 2, 2, 250⟩ nbRow0 nbR1a nbRow2 [] [nbR1b] []
    rfl rfl rfl rfl rfl rfl rfl rfl
  refine ⟨h.1, ?_⟩
  rw [h.2]
  norm_num [nbR1a, nbR1b, List.getLast]

/-- C8: for every measure count and `measuresPerRow ≥ 1` (other options at
their defaults), the layout yields `totalRows = ceil(measureCount /
measuresPerRow)` row configs, each with `y = topY + rowIndex *
(staveHeight + rowSpacing)`, strictly increasing in `y`; `measureCount = 0`
yields zero rows. -/
theorem C8_layout_rows (measureCount measuresPerRow : ℕ) (h : 1 ≤ measuresPerRow) :
    ((calculateScoreLayoutDefault measureCount measuresPerRow).totalRows : ℤ) =
      ⌈(measureCount : ℚ) / (measuresPerRow : ℚ)⌉ ∧
    (calculateScoreLayoutDefault measureCount measuresPerRow).rowConfigs.length =
      (calculateScoreLayoutDefault measureCount measuresPerRow).totalRows ∧
    (∀ rc ∈ (calculateScoreLayoutDefault measureCount measuresPerRow).rowConfigs,
      rc.y = TOP_Y + (rc.rowIndex : ℚ) * (STAVE_HEIGHT + ROW_SPACING)) ∧
    (calculateScoreLayoutDefault measureCount measuresPerRow).rowConfigs.Pairwise
      (fun r s => r.y < s.y) ∧
    (measureCount = 0 →
      (calculateScoreLayoutDefault measureCount measuresPerRow).rowConfigs = []) := by
  have hnn : (0:ℚ) ≤ (measureCount : ℚ) / (measuresPerRow : ℚ) := by positivity
  have hceil : (0:ℤ) ≤ ⌈(measureCount : ℚ) / (measuresPerRow : ℚ)⌉ := Int.ceil_nonneg hnn
  refine ⟨?_, ?_, ?_, ?_, ?_⟩
  · simp only [calculateScoreLayoutDefault, calculateScoreLayout]
    exact Int.toNat_of_nonneg hceil
  · simp [calculateScoreLayoutDefault, calculateScoreLayout]
  · intro rc hrc
    simp only [calculateScoreLayoutDefault, calculateScoreLayout, List.mem_map] at hrc
    obtain ⟨row, _, rfl⟩ := hrc
    rfl
  · simp only [calculateScoreLayoutDefault, calculateScoreLayout]
    rw [List.pairwise_map]
    apply (List.pairwise_lt_range _).imp
    intro a b hab
    have hcast : (a : ℚ) < (b : ℚ) := by exact_mod_cast hab
    have hpos : (0:ℚ) < STAVE_HEIGHT + ROW_SPACING := by
      norm_num [STAVE_HEIGHT, ROW_SPACING]
    have hm := mul_lt_mul_of_pos_right hcast hpos
    simpa using hm
  · intro h0
    subst h0
    simp [calculateScoreLayoutDefault, calculateScoreLayout]

/-- Witness for `C8_layout_rows` at 5 measures, 4 per row. -/
theorem C8_layout_rows_witness :
    ((calculateScoreLayoutDefault 5 4).totalRows : ℤ) = ⌈(5 : ℚ) / (4 : ℚ)⌉ ∧
    (calculateScoreLayoutDefault 5 4).rowConfigs.length =
      (calculateScoreLayoutDefault 5 4).totalRows :=
  ⟨(C8_layout_rows 5 4 (by norm_num)).1, (C8_layout_rows 5 4 (by norm_num)).2.1⟩

end TuneTutor
